import Mathlib

/-!
# Authentication core of `backend/index.js`

A shallow embedding of the Express application in `backend/index.js`:
the start-up check of the signing secret, `authenticateTokenMiddleware`,
and the `POST /register` and `POST /login` handlers.

The npm packages the file calls (`jsonwebtoken`, `bcrypt`) are not part of the
repository; they enter as parameters (`JwtLib`, `BcryptLib`).  Whatever a theorem
needs from them is a hypothesis of that theorem, and every such hypothesis is
discharged at the small reference implementations `refJwt` and `refBcrypt`.
Time is measured in whole seconds, as `jsonwebtoken` does.
-/

namespace Backend

/-! ## JavaScript values -/

/-- JavaScript values, as far as the handlers inspect them. -/
inductive JsVal where
  | undefined
  | null
  | bool (b : Bool)
  | num (n : Int)
  | str (s : String)
  | obj (fields : List (String × JsVal))

/-- A plain object: its own enumerable properties in order. -/
abbrev Obj := List (String × JsVal)

/-- Property read `o[k]`; an absent property reads as `undefined`. -/
def Obj.get (o : Obj) (k : String) : JsVal :=
  (o.lookup k).getD JsVal.undefined

/-- Rest pattern `const { [k]: _, ...rest } = o`: every property except `k`. -/
def Obj.omit (o : Obj) (k : String) : Obj :=
  o.filter (fun kv => kv.1 != k)

/-- The space character, separator of `authHeader.split(' ')`. -/
def space : Char := Char.ofNat 32

/-- `String.prototype.split` with a one-character separator, on character lists. -/
def splitChars (sep : Char) : List Char → List (List Char)
  | [] => [[]]
  | c :: cs =>
    if c = sep then [] :: splitChars sep cs
    else
      match splitChars sep cs with
      | [] => [[c]]
      | w :: ws => (c :: w) :: ws

/-- `s.split(sep)` for a one-character separator. -/
def jsSplit (s : String) (sep : Char) : List String :=
  (splitChars sep s.data).map String.mk

/-! ## The libraries, as parameters -/

/-- The two calls made into `jsonwebtoken`.
`sign payload secret expiresIn now` is `jwt.sign(payload, secret, { expiresIn })` evaluated
at clock time `now`; it returns the token or throws.
`verify token secret now` is `jwt.verify(token, secret, callback)` at clock time `now`:
`.error e` when the callback receives `err`, `.ok payload` when it receives the decoded
payload. -/
structure JwtLib where
  sign : Obj → String → String → Nat → Except String String
  verify : String → String → Nat → Except String Obj

/-- The two calls made into `bcrypt`.
`hash data rounds entropy` is `bcrypt.hash(data, rounds)`, where `entropy` stands for the
random salt drawn by the call; `compare data encrypted` is `bcrypt.compare(data, encrypted)`.
`.error e` is a rejected promise. -/
structure BcryptLib where
  hash : JsVal → Nat → Nat → Except String String
  compare : JsVal → JsVal → Except String Bool

/-! ## Requests, responses, effects -/

/-- The parts of an Express request the code reads or writes.
`headers` has lower-cased names, as Node delivers them; `userId` is the property the
middleware adds (`none`: the property is not set). -/
structure Request where
  headers : List (String × String)
  body : Obj
  userId : Option JsVal

/-- What a handler does to the outside world, in order. -/
inductive Effect where
  | sendStatus (code : Nat)
  | json (code : Nat) (body : JsVal)
  | next
  | log
  | dbCreate
  | dbFindUnique

/-- Is the effect a response sent to the caller? -/
def Effect.isResponse : Effect → Bool
  | .sendStatus _ => true
  | .json _ _ => true
  | _ => false

/-- Is the effect an access to the credential store? -/
def Effect.isStoreAccess : Effect → Bool
  | .dbCreate => true
  | .dbFindUnique => true
  | _ => false

/-- The responses among the effects of a run. -/
def responses (trace : List Effect) : List Effect :=
  trace.filter Effect.isResponse

/-- The number of times the continuation was invoked. -/
def nextCalls : List Effect → Nat
  | [] => 0
  | .next :: es => nextCalls es + 1
  | _ :: es => nextCalls es

/-! ## Start-up (lines 9-16, 30-40, 58-174) -/

/-- JavaScript `!secretKey` for `process.env.JWT_SECRET`, which is a string or undefined. -/
def secretMissing : Option String → Bool
  | none => true
  | some s => s.data.isEmpty

/-- The observable steps of module initialisation after the secret check. -/
inductive InitStep where
  | use (what : String)
  | route (method path : String) (gated : Bool)
  | listen (port : Nat)

/-- The calls on `app` made by the module body, in source order. -/
def appSetup : List InitStep :=
  [ .use "express.json", .use "cors", .use "/uploads",
    .route "POST" "/register" false,
    .route "POST" "/login" false,
    .route "POST" "/books" true,
    .route "GET" "/books" false,
    .route "PUT" "/books/:id" true,
    .route "DELETE" "/books/:id" true,
    .route "GET" "/books/:id" false,
    .listen 8000 ]

/-- Result of evaluating the module: the steps performed and the error thrown, if any. -/
structure Startup where
  steps : List InitStep
  thrown : Option String

/-- Evaluation of the module body with `process.env.JWT_SECRET = jwtSecret`. -/
def startup (jwtSecret : Option String) : Startup :=
  let secretKey := jwtSecret
  if secretMissing secretKey then
    { steps := [], thrown := some "JWT secret key is not defined" }
  else
    { steps := appSetup, thrown := none }

/-- Is the step the registration of a route? -/
def InitStep.isRoute : InitStep → Bool
  | .route _ _ _ => true
  | _ => false

/-- Is the step the call of `app.listen`? -/
def InitStep.isListen : InitStep → Bool
  | .listen _ => true
  | _ => false

/-! ## The access gate (lines 18-28) -/

/-- Lines 19-20: `authHeader && authHeader.split(' ')[1]`.
`none` is `undefined`; an empty header is falsy and is itself the value of `&&`. -/
def tokenOf (req : Request) : Option String :=
  match req.headers.lookup "authorization" with
  | none => none
  | some authHeader =>
    if authHeader.data.isEmpty then some authHeader
    else (jsSplit authHeader space)[1]?

/-- Result of running the middleware: the request afterwards and the effects. -/
structure Gate where
  req : Request
  trace : List Effect

/-- `authenticateTokenMiddleware(req, res, next)` with `secretKey` at clock time `now`. -/
def authenticateTokenMiddleware (jwt : JwtLib) (secretKey : String) (now : Nat)
    (req : Request) : Gate :=
  match tokenOf req with
  | none => { req := req, trace := [.sendStatus 401] }
  | some token =>
    match jwt.verify token secretKey now with
    | .error _ => { req := req, trace := [.sendStatus 403] }
    | .ok user => { req := { req with userId := some (user.get "userId") }, trace := [.next] }

/-! ## The credential store -/

/-- A row of the user table. -/
structure User where
  id : Int
  name : String
  email : String
  password : String

/-- The record object Prisma returns for a row. -/
def User.toObj (u : User) : Obj :=
  [("id", .num u.id), ("name", .str u.name), ("email", .str u.email),
   ("password", .str u.password)]

/-- The user table together with the next key its sequence hands out. -/
structure Store where
  users : List User
  nextId : Int

/-- Modelled from the spec: the Prisma schema (the `User` model behind `prisma.user`) is not
among the sources.  Following the data model of the specification, a user has `id`, `name`,
`email` and the stored hash (the column the code calls `password`); `email` is a unique key
compared exactly, and `id` is assigned at creation.  `create` fails, leaving the table as it
was, when a column value is not a string or when the email is already taken; otherwise it
appends the row and returns it. -/
def Store.create (s : Store) (data : Obj) : Except String (Store × User) :=
  match data.get "name", data.get "email", data.get "password" with
  | .str name, .str email, .str password =>
    if s.users.any (fun u => u.email = email) then
      .error "Unique constraint failed on the fields: (email)"
    else
      let u : User := { id := s.nextId, name := name, email := email, password := password }
      .ok ({ users := s.users ++ [u], nextId := s.nextId + 1 }, u)
  | _, _, _ => .error "Invalid prisma.user.create() invocation"

/-- Modelled from the spec: `prisma.user.findUnique({ where: { email } })` over the table
above (the schema is not among the sources): the row with exactly this email, `null` when
there is none, and an error when `email` is not a string. -/
def Store.findUnique (s : Store) (email : JsVal) : Except String (Option User) :=
  match email with
  | .str e => .ok (s.users.find? (fun u => u.email = e))
  | _ => .error "Invalid prisma.user.findUnique() invocation"

/-! ## The handlers (lines 58-92) -/

/-- Result of running a handler: the store afterwards, the effects in order, and the error
that escaped the handler (a rejected promise), if any. -/
structure Run where
  store : Store
  trace : List Effect
  thrown : Option String

/-- The response `res.status(400).json({ message: 'User already exists' })`. -/
def userExists : Effect :=
  .json 400 (.obj [("message", .str "User already exists")])

/-- The response `res.status(400).json({ message: 'Invalid credentials' })`. -/
def invalidCredentials : Effect :=
  .json 400 (.obj [("message", .str "Invalid credentials")])

/-- The handler of `POST /register` (lines 58-73).  The hash is awaited before the `try`
block is entered, so its rejection leaves the handler. -/
def register (bcrypt : BcryptLib) (entropy : Nat) (store : Store) (req : Request) : Run :=
  let name := req.body.get "name"
  let email := req.body.get "email"
  let password := req.body.get "password"
  match bcrypt.hash password 10 entropy with
  | .error e => { store := store, trace := [], thrown := some e }
  | .ok hashedPassword =>
    match store.create [("name", name), ("email", email), ("password", .str hashedPassword)] with
    | .ok (store', created) =>
      let user := created.toObj.omit "password"
      { store := store', trace := [.dbCreate, .json 200 (.obj [("user", .obj user)])],
        thrown := none }
    | .error _ =>
      { store := store, trace := [.dbCreate, userExists], thrown := none }

/-- The handler of `POST /login` (lines 75-92) at clock time `now`; all of it runs inside
the `try` block, whose `catch` logs the error and answers. -/
def login (bcrypt : BcryptLib) (jwt : JwtLib) (secretKey : String) (now : Nat)
    (store : Store) (req : Request) : Run :=
  let email := req.body.get "email"
  let password := req.body.get "password"
  match store.findUnique email with
  | .error _ =>
    { store := store, trace := [.dbFindUnique, .log, invalidCredentials], thrown := none }
  | .ok none =>
    { store := store, trace := [.dbFindUnique, invalidCredentials], thrown := none }
  | .ok (some user) =>
    match bcrypt.compare password (.str user.password) with
    | .error _ =>
      { store := store, trace := [.dbFindUnique, .log, invalidCredentials], thrown := none }
    | .ok false =>
      { store := store, trace := [.dbFindUnique, invalidCredentials], thrown := none }
    | .ok true =>
      match jwt.sign [("userId", .num user.id)] secretKey "1h" now with
      | .error _ =>
        { store := store, trace := [.dbFindUnique, .log, invalidCredentials], thrown := none }
      | .ok token =>
        { store := store, trace := [.dbFindUnique, .json 200 (.obj [("token", .str token)])],
          thrown := none }

/-! ## Reference implementations of the libraries -/

/-- Reads a run of the character `c` from the front of a list: its length and the rest. -/
def readRun (c : Char) : List Char → Nat × List Char
  | [] => (0, [])
  | x :: xs =>
    if x = c then ((readRun c xs).1 + 1, (readRun c xs).2) else (0, x :: xs)

/-- The signature segment of a reference token: the secret with spaces replaced. -/
def refMac (secret : String) : List Char :=
  secret.data.map (fun c => if c = space then Char.ofNat 95 else c)

/-- A reference token `u..u.e..e.<mac>`: the user id and the expiry in unary, then the
signature segment. -/
def refToken (userId expiry : Nat) (secret : String) : String :=
  String.mk (List.replicate userId (Char.ofNat 117) ++ Char.ofNat 46 ::
    (List.replicate expiry (Char.ofNat 101) ++ Char.ofNat 46 :: refMac secret))

/-- Reference signing: a payload whose `userId` is a natural number, valid for one hour. -/
def refSign (payload : Obj) (secret : String) (expiresIn : String) (now : Nat) :
    Except String String :=
  match payload.get "userId" with
  | .num (Int.ofNat n) =>
    if expiresIn = "1h" then .ok (refToken n (now + 3600) secret)
    else .error "unsupported expiresIn"
  | _ => .error "unsupported payload"

/-- Reference verification: rejects the empty token, a token not of the three-segment shape,
a signature segment that does not belong to `secret`, and a token whose expiry is not after
`now`. -/
def refVerify (token : String) (secret : String) (now : Nat) : Except String Obj :=
  if token.data.isEmpty then .error "jwt must be provided"
  else
    let (userId, r1) := readRun (Char.ofNat 117) token.data
    match r1 with
    | [] => .error "jwt malformed"
    | d1 :: r2 =>
      if d1 ≠ Char.ofNat 46 then .error "jwt malformed"
      else
        let (expiry, r3) := readRun (Char.ofNat 101) r2
        match r3 with
        | [] => .error "jwt malformed"
        | d2 :: sig =>
          if d2 ≠ Char.ofNat 46 then .error "jwt malformed"
          else if sig ≠ refMac secret then .error "invalid signature"
          else if now ≥ expiry then .error "jwt expired"
          else .ok [("userId", .num (Int.ofNat userId)), ("exp", .num (Int.ofNat expiry))]

/-- The reference token library. -/
def refJwt : JwtLib := { sign := refSign, verify := refVerify }

/-- Reference hashing: checks its argument the way `bcrypt.hash` does (it must be a string)
and returns a digest that embeds the salt. -/
def refHash (data : JsVal) (rounds : Nat) (entropy : Nat) : Except String String :=
  match data with
  | .undefined => .error "data and salt arguments required"
  | .null => .error "data and salt arguments required"
  | .str s =>
    .ok (String.mk (Char.ofNat 36 :: (List.replicate rounds (Char.ofNat 114) ++ Char.ofNat 36 ::
      (List.replicate entropy (Char.ofNat 115) ++ Char.ofNat 36 :: s.data.reverse))))
  | _ => .error "data must be a string or Buffer and salt must either be a salt string or a number of rounds"

/-- Reference comparison: both arguments must be strings; true when the digest ends in the
reversed data after its third separator. -/
def refCompare (data : JsVal) (encrypted : JsVal) : Except String Bool :=
  match data, encrypted with
  | .str s, .str h =>
    match h.data with
    | [] => .ok false
    | _ :: r0 =>
      let r1 := (readRun (Char.ofNat 114) r0).2
      match r1 with
      | [] => .ok false
      | _ :: r2 =>
        let r3 := (readRun (Char.ofNat 115) r2).2
        match r3 with
        | [] => .ok false
        | _ :: digest => .ok (decide (digest = s.data.reverse))
  | _, _ => .error "data and hash arguments required"

/-- The reference password hasher. -/
def refBcrypt : BcryptLib := { hash := refHash, compare := refCompare }

/-! ## What the theorems assume of the token library -/

/-- The part of the contract of `jsonwebtoken` that the round trip relies on, at the one
payload the login handler signs, `{ userId: id }` (no `iat`, `nbf` or `exp` of its own): the
token signed with `expiresIn: '1h'` at time `now` contains no space, and `verify` with the
same secret accepts it from `now` until 3600 seconds later (exclusive), decoding the signed
`userId`. -/
structure JwtLib.Contract (jwt : JwtLib) : Prop where
  tokenNoSpace : ∀ (id : Int) secret now token,
    jwt.sign [("userId", .num id)] secret "1h" now = .ok token → space ∉ token.data
  roundTrip : ∀ (id : Int) secret now token,
    jwt.sign [("userId", .num id)] secret "1h" now = .ok token →
    ∀ later, now ≤ later → later < now + 3600 →
      ∃ decoded, jwt.verify token secret later = .ok decoded ∧
        decoded.get "userId" = .num id

/-- Does a response carry a token? -/
def Effect.hasToken : Effect → Bool
  | .json _ (.obj fields) => (fields.lookup "token").isSome
  | _ => false

/-- The emails of a store are pairwise different. -/
def Store.UniqueEmails (s : Store) : Prop :=
  (s.users.map (fun u => u.email)).Nodup

/-! ## Sample data -/

/-- A request with a JSON body and no Authorization header. -/
def bodyRequest (body : Obj) : Request :=
  { headers := [("content-type", "application/json")], body := body, userId := none }

/-- A request whose Authorization header is the given string. -/
def headerRequest (authorization : String) : Request :=
  { headers := [("host", "localhost:8000"), ("authorization", authorization)], body := [],
    userId := none }

/-- The empty credential store. -/
def emptyStore : Store := { users := [], nextId := 1 }

/-- The registration body of the end-to-end example of the specification. -/
def aliceBody : Obj :=
  [("name", .str "Alice"), ("email", .str "alice@example.com"), ("password", .str "pw123")]

/-- The store after Alice has registered. -/
def aliceStore : Store := (register refBcrypt 2 emptyStore (bodyRequest aliceBody)).store

/-- Alice's row. -/
def alice : User :=
  { id := 1, name := "Alice", email := "alice@example.com",
    password := "$rrrrrrrrrr$ss$321wp" }

/-- Alice's login body. -/
def aliceLogin : Obj := [("email", .str "alice@example.com"), ("password", .str "pw123")]

/-- A second registration with Alice's email that submits no password. -/
def duplicateWithoutPassword : Obj :=
  [("name", .str "Bob"), ("email", .str "alice@example.com")]

/-- A first registration whose password is a number. -/
def numericPassword : Obj :=
  [("name", .str "Carol"), ("email", .str "carol@example.com"), ("password", .num 123456)]

/-- A login body with an email nobody registered. -/
def strangerLogin : Obj := [("email", .str "mallory@example.com"), ("password", .str "pw123")]

/-- A login body with Alice's email and a wrong password. -/
def wrongPasswordLogin : Obj := [("email", .str "alice@example.com"), ("password", .str "pw124")]

/-! ## Splitting -/

theorem splitChars_of_not_mem (sep : Char) (l : List Char) (h : sep ∉ l) :
    splitChars sep l = [l] := by
  induction l with
  | nil => rfl
  | cons c cs ih =>
    have hc : c ≠ sep := fun e => h (by simp [e])
    have hcs : sep ∉ cs := fun m => h (List.mem_cons_of_mem _ m)
    simp [splitChars, hc, ih hcs]

theorem splitChars_append_sep (sep : Char) (w rest : List Char) (h : sep ∉ w) :
    splitChars sep (w ++ sep :: rest) = w :: splitChars sep rest := by
  induction w with
  | nil => simp [splitChars]
  | cons c cs ih =>
    have hc : c ≠ sep := fun e => h (by simp [e])
    have hcs : sep ∉ cs := fun m => h (List.mem_cons_of_mem _ m)
    simp [splitChars, hc, ih hcs]

/-- A header `W T` with no space inside `W` or `T` yields the token `T`, whatever `W` is. -/
theorem tokenOf_two_fields (req : Request) (w t : String)
    (hw : space ∉ w.data) (ht : space ∉ t.data)
    (hreq : req.headers.lookup "authorization" = some (w ++ " " ++ t)) :
    tokenOf req = some t := by
  have hd : (w ++ " " ++ t).data = w.data ++ space :: t.data := by
    rw [String.data_append, String.data_append, List.append_assoc]
    rfl
  simp [tokenOf, hreq, jsSplit, hd, splitChars_append_sep _ _ _ hw,
    splitChars_of_not_mem _ _ ht]

/-- A non-empty header without a space has no second field. -/
theorem tokenOf_one_field (req : Request) (h : String)
    (hne : h ≠ "") (hs : space ∉ h.data)
    (hreq : req.headers.lookup "authorization" = some h) :
    tokenOf req = none := by
  have hd : h.data ≠ [] := fun e => hne (String.ext e)
  simp [tokenOf, hreq, jsSplit, splitChars_of_not_mem _ _ hs, hd]

/-- A header `W T X`: only the field between the first and the second space is read, whatever
follows the second space. -/
theorem tokenOf_three_fields (req : Request) (w t extra : String)
    (hw : space ∉ w.data) (ht : space ∉ t.data)
    (hreq : req.headers.lookup "authorization" = some (w ++ " " ++ t ++ " " ++ extra)) :
    tokenOf req = some t := by
  have hd : (w ++ " " ++ t ++ " " ++ extra).data
      = w.data ++ space :: (t.data ++ space :: extra.data) := by
    rw [String.data_append, String.data_append, String.data_append, String.data_append,
      List.append_assoc, List.append_assoc, List.append_assoc]
    rfl
  simp [tokenOf, hreq, jsSplit, hd, splitChars_append_sep _ _ _ hw,
    splitChars_append_sep _ _ _ ht]

/-- A list that contains a space splits at its first space. -/
theorem exists_first_space (l : List Char) (h : space ∈ l) :
    ∃ w rest, space ∉ w ∧ l = w ++ space :: rest := by
  induction l with
  | nil => simp at h
  | cons c cs ih =>
    by_cases hc : c = space
    · exact ⟨[], cs, by simp, by simp [hc]⟩
    · have hcs : space ∈ cs := by
        rcases List.mem_cons.mp h with e | m
        · exact absurd e.symm hc
        · exact m
      obtain ⟨w, rest, hw, hl⟩ := ih hcs
      refine ⟨c :: w, rest, ?_, by simp [hl]⟩
      intro m
      rcases List.mem_cons.mp m with e | m
      · exact hc e.symm
      · exact hw m

/-- Every header value has one of four shapes: empty, without a space, `W T`, or `W T X`
(no space inside `W` or `T`). -/
theorem header_shape (h : String) :
    h = "" ∨ (h ≠ "" ∧ space ∉ h.data) ∨
    ∃ w t : String, space ∉ w.data ∧ space ∉ t.data ∧
      (h = w ++ " " ++ t ∨ ∃ extra : String, h = w ++ " " ++ t ++ " " ++ extra) := by
  by_cases he : h = ""
  · exact Or.inl he
  · by_cases hs : space ∈ h.data
    · obtain ⟨w, rest, hw, hl⟩ := exists_first_space _ hs
      by_cases hr : space ∈ rest
      · obtain ⟨t, extra, ht, hl2⟩ := exists_first_space _ hr
        refine Or.inr (Or.inr ⟨String.mk w, String.mk t, hw, ht, Or.inr ⟨String.mk extra, ?_⟩⟩)
        apply String.ext
        rw [String.data_append, String.data_append, String.data_append, String.data_append,
          List.append_assoc, List.append_assoc, List.append_assoc, hl, hl2]
        rfl
      · refine Or.inr (Or.inr ⟨String.mk w, String.mk rest, hw, hr, Or.inl ?_⟩)
        apply String.ext
        rw [String.data_append, String.data_append, List.append_assoc, hl]
        rfl
    · exact Or.inr (Or.inl ⟨he, hs⟩)

theorem bearer_no_space : space ∉ ("Bearer" : String).data := by decide

theorem tokenOf_bearer (req : Request) (t : String) (ht : space ∉ t.data)
    (hreq : req.headers.lookup "authorization" = some ("Bearer " ++ t)) :
    tokenOf req = some t := by
  apply tokenOf_two_fields req "Bearer" t bearer_no_space ht
  rw [hreq]
  rfl

/-! ## The reference token library meets the contract -/

theorem readRun_replicate (c d : Char) (n : Nat) (rest : List Char) (h : d ≠ c) :
    readRun c (List.replicate n c ++ d :: rest) = (n, d :: rest) := by
  induction n with
  | zero => simp [readRun, h]
  | succ k ih => simp [List.replicate_succ, readRun, ih]

theorem refMac_no_space (secret : String) : space ∉ refMac secret := by
  intro h
  simp only [refMac, List.mem_map] at h
  obtain ⟨c, _, hc⟩ := h
  by_cases e : c = space
  · rw [if_pos e] at hc
    exact absurd hc (by decide)
  · rw [if_neg e] at hc
    exact e hc

theorem refToken_no_space (n e : Nat) (secret : String) :
    space ∉ (refToken n e secret).data := by
  intro h
  simp only [refToken, List.mem_append, List.mem_cons, List.mem_replicate] at h
  rcases h with ⟨_, h⟩ | h | ⟨_, h⟩ | h | h
  · exact absurd h (by decide)
  · exact absurd h (by decide)
  · exact absurd h (by decide)
  · exact absurd h (by decide)
  · exact refMac_no_space secret h

theorem refVerify_refToken (n e : Nat) (secret : String) (now : Nat) (h : now < e) :
    refVerify (refToken n e secret) secret now =
      .ok [("userId", .num (Int.ofNat n)), ("exp", .num (Int.ofNat e))] := by
  have h1 : readRun (Char.ofNat 117) (List.replicate n (Char.ofNat 117) ++ Char.ofNat 46 ::
      (List.replicate e (Char.ofNat 101) ++ Char.ofNat 46 :: refMac secret)) =
      (n, Char.ofNat 46 :: (List.replicate e (Char.ofNat 101) ++ Char.ofNat 46 :: refMac secret)) :=
    readRun_replicate _ _ _ _ (by decide)
  have h2 : readRun (Char.ofNat 101) (List.replicate e (Char.ofNat 101) ++ Char.ofNat 46 ::
      refMac secret) = (e, Char.ofNat 46 :: refMac secret) :=
    readRun_replicate _ _ _ _ (by decide)
  have h3 : ¬ now ≥ e := by omega
  simp only [refVerify, refToken, h1, h2]
  simp [h3]

theorem refSign_ok (payload : Obj) (secret : String) (now : Nat) (token : String)
    (h : refSign payload secret "1h" now = .ok token) :
    ∃ n : Nat, payload.get "userId" = .num (Int.ofNat n) ∧
      token = refToken n (now + 3600) secret := by
  unfold refSign at h
  split at h
  · next n hn =>
    simp at h
    exact ⟨n, hn, h.symm⟩
  · simp at h

theorem refJwt_contract : refJwt.Contract where
  tokenNoSpace := by
    intro id secret now token h
    obtain ⟨n, _, rfl⟩ := refSign_ok _ secret now token h
    exact refToken_no_space _ _ _
  roundTrip := by
    intro id secret now token h later _ hlt
    obtain ⟨n, hn, rfl⟩ := refSign_ok _ secret now token h
    refine ⟨_, refVerify_refToken n (now + 3600) secret later hlt, ?_⟩
    have hid : (JsVal.num id) = .num (Int.ofNat n) := hn
    rw [hid]
    rfl

/-! ## The access gate -/

/-- C1: a request without an Authorization header is answered with status 401; the
continuation is not invoked and the request, its `userId` included, is left as it was. -/
theorem no_header_unauthenticated (jwt : JwtLib) (secretKey : String) (now : Nat)
    (req : Request) (h : req.headers.lookup "authorization" = none) :
    (authenticateTokenMiddleware jwt secretKey now req).trace = [.sendStatus 401] ∧
    nextCalls (authenticateTokenMiddleware jwt secretKey now req).trace = 0 ∧
    (authenticateTokenMiddleware jwt secretKey now req).req = req ∧
    (req.userId = none →
      (authenticateTokenMiddleware jwt secretKey now req).req.userId = none) := by
  have ht : tokenOf req = none := by simp [tokenOf, h]
  simp [authenticateTokenMiddleware, ht, nextCalls]

theorem no_header_unauthenticated_witness :
    (authenticateTokenMiddleware refJwt "k" 7 (bodyRequest aliceBody)).trace
        = [.sendStatus 401] ∧
    nextCalls (authenticateTokenMiddleware refJwt "k" 7 (bodyRequest aliceBody)).trace = 0 ∧
    (authenticateTokenMiddleware refJwt "k" 7 (bodyRequest aliceBody)).req
        = bodyRequest aliceBody ∧
    ((bodyRequest aliceBody).userId = none →
      (authenticateTokenMiddleware refJwt "k" 7 (bodyRequest aliceBody)).req.userId = none) :=
  no_header_unauthenticated refJwt "k" 7 (bodyRequest aliceBody) (by decide)

/-- C2: when the token carried by the Authorization header fails verification under the
configured secret, the request is answered with status 403; the continuation is not invoked
and the request, its `userId` included, is left as it was. -/
theorem failed_verification_forbidden (jwt : JwtLib) (secretKey : String) (now : Nat)
    (req : Request) (token : String) (e : String)
    (ht : tokenOf req = some token)
    (hv : jwt.verify token secretKey now = .error e) :
    (authenticateTokenMiddleware jwt secretKey now req).trace = [.sendStatus 403] ∧
    nextCalls (authenticateTokenMiddleware jwt secretKey now req).trace = 0 ∧
    (authenticateTokenMiddleware jwt secretKey now req).req = req ∧
    (req.userId = none →
      (authenticateTokenMiddleware jwt secretKey now req).req.userId = none) := by
  simp [authenticateTokenMiddleware, ht, hv, nextCalls]

theorem failed_verification_forbidden_witness :
    (authenticateTokenMiddleware refJwt "k" 2 (headerRequest "Bearer u.ee.k")).trace
        = [.sendStatus 403] ∧
    nextCalls (authenticateTokenMiddleware refJwt "k" 2 (headerRequest "Bearer u.ee.k")).trace
        = 0 ∧
    (authenticateTokenMiddleware refJwt "k" 2 (headerRequest "Bearer u.ee.k")).req
        = headerRequest "Bearer u.ee.k" ∧
    ((headerRequest "Bearer u.ee.k").userId = none →
      (authenticateTokenMiddleware refJwt "k" 2 (headerRequest "Bearer u.ee.k")).req.userId
        = none) :=
  failed_verification_forbidden refJwt "k" 2 (headerRequest "Bearer u.ee.k") "u.ee.k"
    "jwt expired" (by decide) (by rfl)

/-- C3: when the token carried by the Authorization header verifies under the configured
secret, the middleware stores the payload's `userId` in `req.userId`, invokes the
continuation exactly once, sends no response, leaves the rest of the request as it was and
does not access the credential store. -/
theorem verified_token_proceeds (jwt : JwtLib) (secretKey : String) (now : Nat)
    (req : Request) (token : String) (user : Obj)
    (ht : tokenOf req = some token)
    (hv : jwt.verify token secretKey now = .ok user) :
    (authenticateTokenMiddleware jwt secretKey now req).req
        = { req with userId := some (user.get "userId") } ∧
    (authenticateTokenMiddleware jwt secretKey now req).trace = [.next] ∧
    nextCalls (authenticateTokenMiddleware jwt secretKey now req).trace = 1 ∧
    responses (authenticateTokenMiddleware jwt secretKey now req).trace = [] ∧
    (authenticateTokenMiddleware jwt secretKey now req).req.headers = req.headers ∧
    (authenticateTokenMiddleware jwt secretKey now req).req.body = req.body ∧
    (∀ e ∈ (authenticateTokenMiddleware jwt secretKey now req).trace,
      e.isStoreAccess = false) := by
  simp [authenticateTokenMiddleware, ht, hv, nextCalls, responses, Effect.isResponse,
    Effect.isStoreAccess]

theorem verified_token_proceeds_witness :
    (authenticateTokenMiddleware refJwt "k" 1 (headerRequest "Bearer uuu.ee.k")).req
        = { headerRequest "Bearer uuu.ee.k" with userId := some (.num 3) } ∧
    (authenticateTokenMiddleware refJwt "k" 1 (headerRequest "Bearer uuu.ee.k")).trace
        = [.next] :=
  have h := verified_token_proceeds refJwt "k" 1 (headerRequest "Bearer uuu.ee.k") "uuu.ee.k"
    [("userId", .num 3), ("exp", .num 2)] (by decide) (by rfl)
  ⟨h.1, h.2.1⟩

/-- C4: the token minted by a successful `POST /login` for the user `u` at time `t`,
presented as `Authorization: Bearer <token>` at a time `t'` with `t ≤ t' < t + 3600`, passes
the middleware, which sets `req.userId` to `u.id` and invokes the continuation. -/
theorem login_token_round_trip (bcrypt : BcryptLib) (jwt : JwtLib) (hjwt : jwt.Contract)
    (secretKey : String) (store : Store) (loginReq : Request) (u : User) (t t' : Nat)
    (token : String)
    (hu : store.findUnique (loginReq.body.get "email") = .ok (some u))
    (hlogin : responses (login bcrypt jwt secretKey t store loginReq).trace
      = [.json 200 (.obj [("token", .str token)])])
    (h1 : t ≤ t') (h2 : t' < t + 3600)
    (req : Request) (hreq : req.headers.lookup "authorization" = some ("Bearer " ++ token)) :
    authenticateTokenMiddleware jwt secretKey t' req
      = { req := { req with userId := some (.num u.id) }, trace := [.next] } := by
  have hsign : jwt.sign [("userId", .num u.id)] secretKey "1h" t = .ok token := by
    unfold login at hlogin
    simp only [hu] at hlogin
    cases hc : bcrypt.compare (loginReq.body.get "password") (.str u.password) with
    | error e => simp [hc, responses, Effect.isResponse, invalidCredentials] at hlogin
    | ok b =>
      cases b with
      | false => simp [hc, responses, Effect.isResponse, invalidCredentials] at hlogin
      | true =>
        cases hs : jwt.sign [("userId", .num u.id)] secretKey "1h" t with
        | error e => simp [hc, hs, responses, Effect.isResponse, invalidCredentials] at hlogin
        | ok tok =>
          simp [hc, hs, responses, Effect.isResponse] at hlogin
          rw [hlogin]
  obtain ⟨decoded, hv, hid⟩ := hjwt.roundTrip _ _ _ _ hsign t' h1 h2
  have ht : tokenOf req = some token :=
    tokenOf_bearer req token (hjwt.tokenNoSpace _ _ _ _ hsign) hreq
  simp [authenticateTokenMiddleware, ht, hv, hid]

theorem login_token_round_trip_witness :
    authenticateTokenMiddleware refJwt "k" 3599
        (headerRequest ("Bearer " ++ refToken 1 3600 "k"))
      = { req := { headerRequest ("Bearer " ++ refToken 1 3600 "k") with
                   userId := some (.num 1) },
          trace := [.next] } :=
  login_token_round_trip refBcrypt refJwt refJwt_contract "k" aliceStore
    (bodyRequest aliceLogin) alice 0 3599 (refToken 1 3600 "k")
    (by rfl) (by rfl) (by decide) (by decide)
    (headerRequest ("Bearer " ++ refToken 1 3600 "k")) (by rfl)

/-! ## Login -/

/-- Every run of the login handler ends without an escaping error, leaves the store as it
was and sends exactly one response: the token or the generic failure. -/
theorem login_answers_once (bcrypt : BcryptLib) (jwt : JwtLib) (secretKey : String) (now : Nat)
    (store : Store) (req : Request) :
    (login bcrypt jwt secretKey now store req).thrown = none ∧
    (login bcrypt jwt secretKey now store req).store = store ∧
    (responses (login bcrypt jwt secretKey now store req).trace = [invalidCredentials] ∨
      ∃ token, responses (login bcrypt jwt secretKey now store req).trace
        = [.json 200 (.obj [("token", .str token)])]) := by
  cases hf : store.findUnique (req.body.get "email") with
  | error e => simp [login, hf, responses, Effect.isResponse, invalidCredentials]
  | ok found =>
    cases found with
    | none => simp [login, hf, responses, Effect.isResponse, invalidCredentials]
    | some user =>
      cases hc : bcrypt.compare (req.body.get "password") (.str user.password) with
      | error e => simp [login, hf, hc, responses, Effect.isResponse, invalidCredentials]
      | ok b =>
        cases b with
        | false => simp [login, hf, hc, responses, Effect.isResponse, invalidCredentials]
        | true =>
          cases hs : jwt.sign [("userId", .num user.id)] secretKey "1h" now with
          | error e => simp [login, hf, hc, hs, responses, Effect.isResponse, invalidCredentials]
          | ok token => simp [login, hf, hc, hs, responses, Effect.isResponse]

/-- C5: a login with an email that matches no stored user and a login with a registered
email whose password does not verify against the stored hash receive the same response,
status 400 with body `{message: 'Invalid credentials'}`, which carries no token. -/
theorem login_failures_indistinguishable (bcrypt : BcryptLib) (jwt : JwtLib)
    (secretKey : String) (now1 now2 : Nat) (store1 store2 : Store) (r1 r2 : Request) (u : User)
    (h1 : store1.findUnique (r1.body.get "email") = .ok none)
    (h2 : store2.findUnique (r2.body.get "email") = .ok (some u))
    (hpw : bcrypt.compare (r2.body.get "password") (.str u.password) ≠ .ok true) :
    responses (login bcrypt jwt secretKey now1 store1 r1).trace
      = responses (login bcrypt jwt secretKey now2 store2 r2).trace ∧
    responses (login bcrypt jwt secretKey now1 store1 r1).trace
      = [.json 400 (.obj [("message", .str "Invalid credentials")])] ∧
    (∀ e ∈ responses (login bcrypt jwt secretKey now1 store1 r1).trace, e.hasToken = false) ∧
    (∀ e ∈ responses (login bcrypt jwt secretKey now2 store2 r2).trace, e.hasToken = false) := by
  have ha : responses (login bcrypt jwt secretKey now1 store1 r1).trace
      = [.json 400 (.obj [("message", .str "Invalid credentials")])] := by
    simp [login, h1, responses, Effect.isResponse, invalidCredentials]
  have hb : responses (login bcrypt jwt secretKey now2 store2 r2).trace
      = [.json 400 (.obj [("message", .str "Invalid credentials")])] := by
    unfold login
    simp only [h2]
    cases hc : bcrypt.compare (r2.body.get "password") (.str u.password) with
    | error e => simp [responses, Effect.isResponse, invalidCredentials]
    | ok b =>
      cases b with
      | false => simp [responses, Effect.isResponse, invalidCredentials]
      | true => exact absurd hc hpw
  rw [ha, hb]
  refine ⟨rfl, rfl, ?_, ?_⟩ <;>
  · intro e he
    simp only [List.mem_singleton] at he
    rw [he]
    rfl

theorem login_failures_indistinguishable_witness :
    responses (login refBcrypt refJwt "k" 5 aliceStore (bodyRequest strangerLogin)).trace
      = responses (login refBcrypt refJwt "k" 9 aliceStore (bodyRequest wrongPasswordLogin)).trace ∧
    responses (login refBcrypt refJwt "k" 5 aliceStore (bodyRequest strangerLogin)).trace
      = [.json 400 (.obj [("message", .str "Invalid credentials")])] :=
  have h := login_failures_indistinguishable refBcrypt refJwt "k" 5 9 aliceStore aliceStore
    (bodyRequest strangerLogin) (bodyRequest wrongPasswordLogin) alice
    (by rfl) (by rfl)
    (by
      intro h
      have e : refBcrypt.compare ((bodyRequest wrongPasswordLogin).body.get "password")
          (.str alice.password) = .ok false := rfl
      rw [e] at h
      cases h)
  ⟨h.1, h.2.1⟩

/-! ## Registration -/

theorem Obj.lookup_omit_self (o : Obj) (k : String) : (o.omit k).lookup k = none := by
  induction o with
  | nil => rfl
  | cons kv rest ih =>
    obtain ⟨a, v⟩ := kv
    by_cases h : a = k
    · simpa [Obj.omit, List.filter_cons, h] using ih
    · have hk : (k == a) = false := by simpa using fun e => h e.symm
      simpa [Obj.omit, List.filter_cons, h, List.lookup_cons, hk] using ih

theorem Obj.get_omit_of_ne (o : Obj) (k k' : String) (h : k ≠ k') :
    (o.omit k').get k = o.get k := by
  induction o with
  | nil => rfl
  | cons kv rest ih =>
    obtain ⟨a, v⟩ := kv
    simp only [Obj.get, Obj.omit] at ih ⊢
    by_cases ha : a = k'
    · subst ha
      have hk : (k == a) = false := by simpa using h
      simpa [List.filter_cons, List.lookup_cons, hk] using ih
    · by_cases hka : k = a
      · simp [List.filter_cons, ha, List.lookup_cons, hka]
      · have hk : (k == a) = false := by simpa using hka
        simpa [List.filter_cons, ha, List.lookup_cons, hk] using ih

/-- What a successful `create` does: the submitted strings become a new row, appended to the
table. -/
theorem Store.create_ok (s s' : Store) (data : Obj) (u : User)
    (h : s.create data = .ok (s', u)) :
    data.get "name" = .str u.name ∧ data.get "email" = .str u.email ∧
    data.get "password" = .str u.password ∧ u.id = s.nextId ∧
    s'.users = s.users ++ [u] ∧ ∀ v ∈ s.users, v.email ≠ u.email := by
  unfold Store.create at h
  split at h
  · next name email password hn he hp =>
    split at h
    · simp at h
    · next hany =>
      simp only [Except.ok.injEq, Prod.mk.injEq] at h
      obtain ⟨hs, hu⟩ := h
      subst hu
      subst hs
      refine ⟨hn, he, hp, rfl, rfl, ?_⟩
      intro v hv hve
      exact hany (List.any_eq_true.mpr ⟨v, hv, by simpa using hve⟩)
  · simp at h

/-- A `create` whose email is already stored fails. -/
theorem Store.create_duplicate (s : Store) (data : Obj) (u : User) (hu : u ∈ s.users)
    (he : data.get "email" = .str u.email) : ∃ e, s.create data = .error e := by
  unfold Store.create
  split
  · next name email password hn he' hp =>
    rw [he] at he'
    have hmail : u.email = email := by injection he'
    have hany : (s.users.any fun v => decide (v.email = email)) = true :=
      List.any_eq_true.mpr ⟨u, hu, by simpa using hmail⟩
    simp [hany]
  · exact ⟨_, rfl⟩

/-- When the hasher accepts the password, a registration with a stored email is answered
with the generic conflict and the store is left as it was. -/
theorem register_duplicate_conflict (bcrypt : BcryptLib) (entropy : Nat) (store : Store)
    (req : Request) (u : User) (digest : String) (hu : u ∈ store.users)
    (he : req.body.get "email" = .str u.email)
    (hh : bcrypt.hash (req.body.get "password") 10 entropy = .ok digest) :
    responses (register bcrypt entropy store req).trace = [userExists] ∧
    (register bcrypt entropy store req).store = store ∧
    (register bcrypt entropy store req).thrown = none := by
  obtain ⟨e, hc⟩ := Store.create_duplicate store
    [("name", req.body.get "name"), ("email", req.body.get "email"), ("password", .str digest)]
    u hu (by rw [← he]; rfl)
  simp [register, hh, hc, responses, Effect.isResponse, userExists]

/-- Registration keeps the emails of the store pairwise different. -/
theorem register_keeps_unique_emails (bcrypt : BcryptLib) (entropy : Nat) (store : Store)
    (req : Request) (h : store.UniqueEmails) :
    (register bcrypt entropy store req).store.UniqueEmails := by
  cases hh : bcrypt.hash (req.body.get "password") 10 entropy with
  | error e => simpa [register, hh] using h
  | ok digest =>
    cases hc : store.create
        [("name", req.body.get "name"), ("email", req.body.get "email"),
         ("password", .str digest)] with
    | error e => simpa [register, hh, hc] using h
    | ok r =>
      obtain ⟨s', u⟩ := r
      obtain ⟨_, _, _, _, hs, hfresh⟩ := Store.create_ok _ _ _ _ hc
      simp only [register, hh, hc, Store.UniqueEmails, hs, List.map_append, List.map_cons,
        List.map_nil]
      unfold Store.UniqueEmails at h
      rw [List.nodup_append]
      refine ⟨h, List.nodup_singleton _, ?_⟩
      intro a ha hb
      simp only [List.mem_singleton] at hb
      obtain ⟨v, hv, hva⟩ := List.mem_map.mp ha
      exact hfresh v hv (by rw [hva, hb])

/-- C6: the body of a successful registration is `{user}` with the created row minus its
`password` field, every other field kept; the row persisted holds the hasher's digest of the
submitted password; and every login is answered with a body holding only a token or only a
message. -/
theorem password_hash_not_disclosed (bcrypt : BcryptLib) (entropy : Nat) (store : Store)
    (req : Request) (jwt : JwtLib) (secretKey : String) (now : Nat) (loginStore : Store)
    (loginReq : Request) :
    (∀ body, Effect.json 200 body ∈ (register bcrypt entropy store req).trace →
      ∃ created digest,
        bcrypt.hash (req.body.get "password") 10 entropy = .ok digest ∧
        (register bcrypt entropy store req).store.users = store.users ++ [created] ∧
        created.password = digest ∧
        (∀ p, req.body.get "password" = .str p → digest ≠ p → created.password ≠ p) ∧
        responses (register bcrypt entropy store req).trace = [.json 200 body] ∧
        body = .obj [("user", .obj (created.toObj.omit "password"))] ∧
        (created.toObj.omit "password").lookup "password" = none ∧
        (∀ k, k ≠ "password" →
          (created.toObj.omit "password").get k = created.toObj.get k)) ∧
    (∃ code fields,
      responses (login bcrypt jwt secretKey now loginStore loginReq).trace
        = [.json code (.obj fields)] ∧
      ((∃ token, fields = [("token", .str token)]) ∨
        fields = [("message", .str "Invalid credentials")])) := by
  constructor
  · intro body hsucc
    cases hh : bcrypt.hash (req.body.get "password") 10 entropy with
    | error e => simp [register, hh] at hsucc
    | ok digest =>
      cases hc : store.create
          [("name", req.body.get "name"), ("email", req.body.get "email"),
           ("password", .str digest)] with
      | error e => simp [register, hh, hc, userExists] at hsucc
      | ok r =>
        obtain ⟨s', u⟩ := r
        obtain ⟨_, _, hp, _, hs, _⟩ := Store.create_ok _ _ _ _ hc
        have hpw : u.password = digest := by
          have : (JsVal.str digest) = .str u.password := hp
          injection this with h
          exact h.symm
        simp only [register, hh, hc, List.mem_cons, Effect.json.injEq, true_and,
          List.mem_singleton, false_or, reduceCtorEq, List.not_mem_nil, or_false] at hsucc
        refine ⟨u, digest, rfl, ?_, hpw, ?_, ?_, ?_, Obj.lookup_omit_self _ _,
          fun k hk => Obj.get_omit_of_ne _ _ _ hk⟩
        · simp [register, hh, hc, hs]
        · intro p _ hne
          rw [hpw]
          exact hne
        · simp [register, hh, hc, responses, Effect.isResponse, hsucc]
        · exact hsucc
  · rcases (login_answers_once bcrypt jwt secretKey now loginStore loginReq).2.2 with
      h | ⟨token, h⟩
    · exact ⟨400, _, h, Or.inr rfl⟩
    · exact ⟨200, _, h, Or.inl ⟨token, rfl⟩⟩

theorem password_hash_not_disclosed_witness :
    (∃ created digest,
      refBcrypt.hash ((bodyRequest aliceBody).body.get "password") 10 2 = .ok digest ∧
      (register refBcrypt 2 emptyStore (bodyRequest aliceBody)).store.users
        = emptyStore.users ++ [created] ∧
      created.password = digest) ∧
    (∃ code fields,
      responses (login refBcrypt refJwt "k" 5 aliceStore (bodyRequest wrongPasswordLogin)).trace
        = [.json code (.obj fields)] ∧
      ((∃ token, fields = [("token", .str token)]) ∨
        fields = [("message", .str "Invalid credentials")])) :=
  have h := password_hash_not_disclosed refBcrypt 2 emptyStore (bodyRequest aliceBody)
    refJwt "k" 5 aliceStore (bodyRequest wrongPasswordLogin)
  match h.1 (.obj [("user", .obj [("id", .num 1), ("name", .str "Alice"),
      ("email", .str "alice@example.com")])])
      (List.mem_cons_of_mem _ (List.mem_singleton.mpr rfl)) with
  | ⟨created, digest, h1, h2, h3, _⟩ => ⟨⟨created, digest, h1, h2, h3⟩, h.2⟩

/-- C7: at a store that holds Alice, a registration with Alice's email and no password is
not answered at all: the hasher's rejection leaves the handler before the store is asked, so
no conflict response is sent. -/
theorem duplicate_without_password_unanswered :
    alice ∈ aliceStore.users ∧
    duplicateWithoutPassword.get "email" = .str alice.email ∧
    (register refBcrypt 2 aliceStore (bodyRequest duplicateWithoutPassword)).trace = [] ∧
    (register refBcrypt 2 aliceStore (bodyRequest duplicateWithoutPassword)).thrown
      = some "data and salt arguments required" :=
  ⟨List.mem_singleton.mpr rfl, rfl, rfl, rfl⟩

/-- Whatever the library, a rejected hash leaves the register handler with no response
sent. -/
theorem register_unanswered_of_hash_error (bcrypt : BcryptLib) (entropy : Nat) (store : Store)
    (req : Request) (e : String)
    (hh : bcrypt.hash (req.body.get "password") 10 entropy = .error e) :
    (register bcrypt entropy store req).trace = [] ∧
    (register bcrypt entropy store req).thrown = some e ∧
    (register bcrypt entropy store req).store = store := by
  simp [register, hh]

/-- When the hasher accepts the password, the register handler sends exactly one response,
`{user}` or the generic failure, and no error leaves it. -/
theorem register_answers_once_of_hash_ok (bcrypt : BcryptLib) (entropy : Nat) (store : Store)
    (req : Request) (digest : String)
    (hh : bcrypt.hash (req.body.get "password") 10 entropy = .ok digest) :
    (register bcrypt entropy store req).thrown = none ∧
    (responses (register bcrypt entropy store req).trace = [userExists] ∨
      ∃ user, responses (register bcrypt entropy store req).trace
        = [.json 200 (.obj [("user", .obj user)])]) := by
  cases hc : store.create
      [("name", req.body.get "name"), ("email", req.body.get "email"),
       ("password", .str digest)] with
  | error e => simp [register, hh, hc, responses, Effect.isResponse, userExists]
  | ok r =>
    obtain ⟨s', u⟩ := r
    simp [register, hh, hc, responses, Effect.isResponse, userExists]

/-- C10: a first registration whose password is a number, and one whose password is
missing, send no response at all; the hasher's rejection leaves the handler uncaught. -/
theorem register_not_total :
    (register refBcrypt 2 emptyStore (bodyRequest numericPassword)).trace = [] ∧
    (register refBcrypt 2 emptyStore (bodyRequest numericPassword)).thrown
      = some "data must be a string or Buffer and salt must either be a salt string or a number of rounds" ∧
    (register refBcrypt 2 emptyStore (bodyRequest [])).trace = [] ∧
    (register refBcrypt 2 emptyStore (bodyRequest [])).thrown
      = some "data and salt arguments required" :=
  ⟨rfl, rfl, rfl, rfl⟩

/-! ## The scheme word -/

/-- C8, counterexample: a header with the scheme word `Basic` followed by a token that
verifies passes the gate and the continuation is invoked; and an Authorization header that
is present but empty, carrying no token, is answered with 403, not 401. -/
theorem other_scheme_passes_gate :
    (authenticateTokenMiddleware refJwt "k" 1 (headerRequest "Basic uuu.ee.k")).trace
      = [.next] ∧
    nextCalls (authenticateTokenMiddleware refJwt "k" 1 (headerRequest "Basic uuu.ee.k")).trace
      = 1 ∧
    (authenticateTokenMiddleware refJwt "k" 1 (headerRequest "Basic uuu.ee.k")).req.userId
      = some (.num 3) ∧
    (authenticateTokenMiddleware refJwt "k" 1 (headerRequest "")).trace
      = [.sendStatus 403] :=
  ⟨rfl, rfl, rfl, rfl⟩

/-- C8, amended: the middleware takes as token the second field of the header split at
single spaces, that is the text between the first and the second space (or the end),
whatever precedes the first space and whatever follows the second.  Every header has one of
the four shapes below.  For `W T` and `W T X` (no space inside `W` or `T`, `T` possibly
empty) the answer is 403 with the request unchanged when `T` fails verification, and the
continuation is invoked with `req.userId` set when `T` verifies; an empty header is
verified as the empty token; a non-empty header without a space is answered with 401; and
the continuation is invoked exactly when the field read verifies under the configured
secret. -/
theorem gate_reads_second_field (jwt : JwtLib) (secretKey : String) (now : Nat)
    (req : Request) :
    (∀ h : String, req.headers.lookup "authorization" = some h →
      h = "" ∨ (h ≠ "" ∧ space ∉ h.data) ∨
      ∃ w t : String, space ∉ w.data ∧ space ∉ t.data ∧
        (h = w ++ " " ++ t ∨ ∃ extra : String, h = w ++ " " ++ t ++ " " ++ extra)) ∧
    (∀ w t extra : String, space ∉ w.data → space ∉ t.data →
      (req.headers.lookup "authorization" = some (w ++ " " ++ t) ∨
        req.headers.lookup "authorization" = some (w ++ " " ++ t ++ " " ++ extra)) →
      tokenOf req = some t ∧
      (∀ e, jwt.verify t secretKey now = .error e →
        authenticateTokenMiddleware jwt secretKey now req
          = { req := req, trace := [.sendStatus 403] }) ∧
      (∀ user, jwt.verify t secretKey now = .ok user →
        authenticateTokenMiddleware jwt secretKey now req
          = { req := { req with userId := some (user.get "userId") }, trace := [.next] })) ∧
    (req.headers.lookup "authorization" = some "" →
      tokenOf req = some "" ∧
      (∀ e, jwt.verify "" secretKey now = .error e →
        authenticateTokenMiddleware jwt secretKey now req
          = { req := req, trace := [.sendStatus 403] }) ∧
      (∀ user, jwt.verify "" secretKey now = .ok user →
        authenticateTokenMiddleware jwt secretKey now req
          = { req := { req with userId := some (user.get "userId") }, trace := [.next] })) ∧
    (∀ h : String, req.headers.lookup "authorization" = some h → h ≠ "" → space ∉ h.data →
      tokenOf req = none ∧
      authenticateTokenMiddleware jwt secretKey now req
        = { req := req, trace := [.sendStatus 401] }) ∧
    (nextCalls (authenticateTokenMiddleware jwt secretKey now req).trace ≠ 0 ↔
      ∃ token user, tokenOf req = some token ∧ jwt.verify token secretKey now = .ok user) := by
  refine ⟨fun h _ => header_shape h, ?_, ?_, ?_, ?_⟩
  · intro w t extra hw ht hreq
    have htok : tokenOf req = some t := by
      rcases hreq with hreq | hreq
      · exact tokenOf_two_fields req w t hw ht hreq
      · exact tokenOf_three_fields req w t extra hw ht hreq
    refine ⟨htok, ?_, ?_⟩
    · intro e hv
      simp [authenticateTokenMiddleware, htok, hv]
    · intro user hv
      simp [authenticateTokenMiddleware, htok, hv]
  · intro hreq
    have htok : tokenOf req = some "" := by simp [tokenOf, hreq]
    refine ⟨htok, ?_, ?_⟩
    · intro e hv
      simp [authenticateTokenMiddleware, htok, hv]
    · intro user hv
      simp [authenticateTokenMiddleware, htok, hv]
  · intro h hreq hne hs
    have htok := tokenOf_one_field req h hne hs hreq
    exact ⟨htok, by simp [authenticateTokenMiddleware, htok]⟩
  · constructor
    · intro hn
      cases htok : tokenOf req with
      | none => simp [authenticateTokenMiddleware, htok, nextCalls] at hn
      | some token =>
        cases hv : jwt.verify token secretKey now with
        | error e => simp [authenticateTokenMiddleware, htok, hv, nextCalls] at hn
        | ok user => exact ⟨token, user, rfl, hv⟩
    · rintro ⟨token, user, htok, hv⟩
      simp [authenticateTokenMiddleware, htok, hv, nextCalls]

theorem gate_reads_second_field_witness :
    (authenticateTokenMiddleware refJwt "k" 1 (headerRequest "Basic uuu.ee.k")).trace
      = [.next] ∧
    (authenticateTokenMiddleware refJwt "k" 1 (headerRequest "Bearer uuu.ee.k extra")).trace
      = [.next] ∧
    (authenticateTokenMiddleware refJwt "k" 1 (headerRequest "Bearer  uuu.ee.k")).trace
      = [.sendStatus 403] ∧
    (authenticateTokenMiddleware refJwt "k" 1 (headerRequest "")).trace
      = [.sendStatus 403] ∧
    (authenticateTokenMiddleware refJwt "k" 1 (headerRequest "Bearer")).trace
      = [.sendStatus 401] ∧
    (∃ token user, tokenOf (headerRequest "Bearer uuu.ee.k") = some token ∧
      refJwt.verify token "k" 1 = .ok user) :=
  ⟨congrArg Gate.trace
     (((gate_reads_second_field refJwt "k" 1 (headerRequest "Basic uuu.ee.k")).2.1
       "Basic" "uuu.ee.k" "" (by decide) (by decide) (Or.inl (by rfl))).2.2 _ (by rfl)),
   congrArg Gate.trace
     (((gate_reads_second_field refJwt "k" 1 (headerRequest "Bearer uuu.ee.k extra")).2.1
       "Bearer" "uuu.ee.k" "extra" (by decide) (by decide) (Or.inr (by rfl))).2.2 _ (by rfl)),
   congrArg Gate.trace
     (((gate_reads_second_field refJwt "k" 1 (headerRequest "Bearer  uuu.ee.k")).2.1
       "Bearer" "" "uuu.ee.k" (by decide) (by decide) (Or.inr (by rfl))).2.1
       "jwt must be provided" (by rfl)),
   congrArg Gate.trace
     (((gate_reads_second_field refJwt "k" 1 (headerRequest "")).2.2.1 (by rfl)).2.1
       "jwt must be provided" (by rfl)),
   congrArg Gate.trace
     ((gate_reads_second_field refJwt "k" 1 (headerRequest "Bearer")).2.2.2.1 "Bearer"
       (by rfl) (by decide) (by decide)).2,
   (gate_reads_second_field refJwt "k" 1 (headerRequest "Bearer uuu.ee.k")).2.2.2.2.mp
     (by decide)⟩

/-! ## Start-up -/

/-- C9: with `JWT_SECRET` undefined or empty the module throws at the secret check, before
any middleware or route is registered and before the server listens; with a non-empty secret
the check does not throw and the application is set up. -/
theorem startup_requires_secret (jwtSecret : Option String) :
    ((jwtSecret = none ∨ jwtSecret = some "") →
      (startup jwtSecret).thrown = some "JWT secret key is not defined" ∧
      (startup jwtSecret).steps = [] ∧
      (∀ s ∈ (startup jwtSecret).steps, s.isRoute = false ∧ s.isListen = false)) ∧
    (∀ s : String, jwtSecret = some s → s ≠ "" →
      (startup jwtSecret).thrown = none ∧ (startup jwtSecret).steps = appSetup) := by
  constructor
  · intro h
    have hm : secretMissing jwtSecret = true := by
      rcases h with h | h <;> rw [h] <;> rfl
    simp [startup, hm]
  · intro s hs hne
    have hd : s.data ≠ [] := fun e => hne (String.ext e)
    have hm : secretMissing jwtSecret = false := by
      rw [hs]
      simpa [secretMissing] using hd
    simp [startup, hm]

theorem startup_requires_secret_witness :
    ((startup none).thrown = some "JWT secret key is not defined" ∧ (startup none).steps = []) ∧
    ((startup (some "")).thrown = some "JWT secret key is not defined" ∧
      (startup (some "")).steps = []) ∧
    ((startup (some "k")).thrown = none ∧ (startup (some "k")).steps = appSetup) :=
  ⟨⟨((startup_requires_secret none).1 (Or.inl rfl)).1,
    ((startup_requires_secret none).1 (Or.inl rfl)).2.1⟩,
   ⟨((startup_requires_secret (some "")).1 (Or.inr rfl)).1,
    ((startup_requires_secret (some "")).1 (Or.inr rfl)).2.1⟩,
   (startup_requires_secret (some "k")).2 "k" rfl (by decide)⟩

end Backend
